import Mathlib

/-!
Shallow embedding of the inventory service (`InventoryService`) of this
repository: entry-to-transaction transformation, cost-method dispatch,
lot-number sequencing, transaction recording from document entries, and
the compute-job scheduler.  Dates, tenant ids and item ids are modelled
as natural numbers; the external collaborators (item lookup, settings
store, entries collaborator, job queue) are modelled as explicit
function arguments and explicit state.
-/

/-- Direction of an inventory transaction (`TInventoryTransactionDirection`). -/
inductive TDirection
  | IN
  | OUT
deriving DecidableEq, Repr

/-- An item entry (`IItemEntry`) as consumed by
`transformItemEntriesToInventory`.  The fields `itemId`, `quantity` and
`rate` are `Option`-valued to model JavaScript objects on which those keys
may be absent (a "malformed" entry); `pick` in the source copies only the
keys that are present. -/
structure IItemEntry where
  id : Nat
  referenceType : String
  referenceId : Nat
  itemId : Option Nat
  quantity : Option Int
  rate : Option Int
deriving DecidableEq, Repr

/-- An inventory transaction (`IInventoryTransaction`) as produced by
`transformItemEntriesToInventory`.  `itemId`, `quantity` and `rate` are
`Option`-valued for the same reason as on `IItemEntry`. -/
structure IInventoryTransaction where
  itemId : Option Nat
  quantity : Option Int
  rate : Option Int
  lotNumber : Nat
  transactionType : String
  transactionId : Nat
  direction : TDirection
  date : Nat
  entryId : Nat
deriving DecidableEq, Repr

/-- Embedding of `InventoryService.transformItemEntriesToInventory`:
maps each entry to an inventory transaction, copying `itemId`, `quantity`
and `rate` from the entry, stamping the given lot number, direction and
date, and carrying the entry's `referenceType`/`referenceId` over as
`transactionType`/`transactionId` and its `id` as `entryId`. -/
def transformItemEntriesToInventory (itemEntries : List IItemEntry)
    (direction : TDirection) (date : Nat) (lotNumber : Nat) :
    List IInventoryTransaction :=
  itemEntries.map fun entry =>
    { itemId := entry.itemId
      quantity := entry.quantity
      rate := entry.rate
      lotNumber := lotNumber
      transactionType := entry.referenceType
      transactionId := entry.referenceId
      direction := direction
      date := date
      entryId := entry.id }

/-- Configured cost method of an item (`TCostMethod`). -/
inductive CostMethod
  | FIFO
  | LIFO
  | AVG
deriving DecidableEq, Repr

/-- An item record as far as `computeItemCost` can observe it: its `type`
classification and its configured cost method. -/
structure Item where
  type : String
  costMethod : CostMethod
deriving DecidableEq, Repr

/-- The two cost-method strategy classes the dispatcher can delegate to:
`InventoryCostLotTracker` (FIFO/LIFO lot tracking) and
`InventoryAverageCost` (weighted average). -/
inductive CostStrategy
  | lotTracker
  | averageCost
deriving DecidableEq, Repr

/-- Failure modes of `computeItemCost`.  `typeErrorUndefinedItem` models the
JavaScript `TypeError` raised by reading `.type` of `undefined` when the item
lookup found nothing; `notInventoryTypeError` is the thrown domain error for
an existing item whose `type` is not `inventory`;
`typeErrorUndefinedComputer` models calling `.computeItemCost()` on an
undefined strategy variable, were the switch to match no case. -/
inductive ComputeItemCostError
  | typeErrorUndefinedItem
  | notInventoryTypeError
  | typeErrorUndefinedComputer
deriving DecidableEq, Repr

/-- The scrutinee of the dispatch switch in the source.  The source switches
on the string literal written there, not on any field of the item. -/
def costDispatchScrutinee : String := "AVG"

/-- Embedding of the `switch` statement of `computeItemCost`: `FIFO` and
`LIFO` cases select the lot-tracking strategy, the `AVG` case selects the
weighted-average strategy, and no other case exists (the strategy variable
would remain undefined). -/
def selectCostStrategy (scrutinee : String) : Option CostStrategy :=
  if scrutinee = "FIFO" || scrutinee = "LIFO" then some CostStrategy.lotTracker
  else if scrutinee = "AVG" then some CostStrategy.averageCost
  else none

/-- Embedding of `InventoryService.computeItemCost`.  The tenant's item
table is modelled as a lookup function `items : Nat → Option Item`.  A
result `Except.ok s` means the call delegated to strategy `s` (all cost
computation and all `InventoryLotCost` writes happen inside the strategy,
outside this function); an `Except.error` result means the call failed
before any strategy was invoked, so no cost computation was performed and
no lot-cost record was written. -/
def computeItemCost (items : Nat → Option Item) (itemId : Nat) :
    Except ComputeItemCostError CostStrategy :=
  match items itemId with
  | none => Except.error ComputeItemCostError.typeErrorUndefinedItem
  | some item =>
    if item.type ≠ "inventory" then
      Except.error ComputeItemCostError.notInventoryTypeError
    else
      match selectCostStrategy costDispatchScrutinee with
      | some s => Except.ok s
      | none => Except.error ComputeItemCostError.typeErrorUndefinedComputer

/-- Embedding of `InventoryService.getNextLotNumber`: reads the stored
`lot_number_increment` settings value and returns it when present and
truthy, else `1`.  The stored counter is `Option Nat`; a stored `0` is
falsy in JavaScript, hence also defaults to `1`. -/
def getNextLotNumber (counter : Option Nat) : Nat :=
  match counter with
  | some v => if v ≠ 0 then v else 1
  | none => 1

/-- Embedding of `InventoryService.incrementNextLotNumber`: starts from
`1`; when the stored value is present and truthy, the result is the stored
value plus one; the result is written back and returned.  Returns the pair
(returned lot number, new stored counter). -/
def incrementNextLotNumber (counter : Option Nat) : Nat × Option Nat :=
  let lotNumber :=
    match counter with
    | some v => if v ≠ 0 then v + 1 else 1
    | none => 1
  (lotNumber, some lotNumber)

/-- Iterates `incrementNextLotNumber` sequentially, collecting the returned
lot numbers and threading the stored counter. -/
def iterIncrementNextLotNumber : Nat → Option Nat → List Nat × Option Nat
  | 0, counter => ([], counter)
  | n + 1, counter =>
    let step := incrementNextLotNumber counter
    let rest := iterIncrementNextLotNumber n step.2
    (step.1 :: rest.1, rest.2)

/-- Named events dispatched on the notification bus. -/
inductive EventName
  | computeItemCostJobScheduled (tenantId itemId startingDate : Nat)
  | inventoryTransactionsCreated
  | inventoryTransactionsDeleted
deriving DecidableEq, Repr

/-- Tenant-scoped state touched by
`recordInventoryTransactionsFromItemsEntries`: the stored
`lot_number_increment` counter, the persisted inventory transactions, the
per-call trace of lot numbers stamped on recorded transactions (one stamp
per successful recording call; every transaction of a call carries the same
lot number), and the dispatched events. -/
structure InventoryState where
  counter : Option Nat
  transactions : List IInventoryTransaction
  stampedLots : List Nat
  events : List EventName
deriving DecidableEq, Repr

/-- Embedding of `InventoryService.recordInventoryTransactionsFromItemsEntries`
(with `override = false`).  The entries collaborator
(`itemsEntriesService.getInventoryEntries`) is modelled as a function from
(transactionType, transactionId) to the inventory-typed entries of that
document.  Reads the next lot number, fetches the entries, returns the
state unchanged when no entry is inventory-typed; otherwise transforms the
entries, inserts the resulting transactions, dispatches the
transactions-created event, and increments the stored lot counter. -/
def recordInventoryTransactionsFromItemsEntries
    (getInventoryEntries : String → Nat → List IItemEntry)
    (st : InventoryState)
    (transactionId : Nat) (transactionType : String)
    (transactionDate : Nat) (transactionDirection : TDirection) :
    InventoryState :=
  let lotNumber := getNextLotNumber st.counter
  let inventoryEntries := getInventoryEntries transactionType transactionId
  if inventoryEntries.length ≤ 0 then st
  else
    let inventoryTranscations :=
      transformItemEntriesToInventory inventoryEntries transactionDirection
        transactionDate lotNumber
    { counter := (incrementNextLotNumber st.counter).2
      transactions := st.transactions ++ inventoryTranscations
      stampedLots := st.stampedLots ++ [lotNumber]
      events := st.events ++ [EventName.inventoryTransactionsCreated] }

/-- One call of `recordInventoryTransactionsFromItemsEntries`: the document
arguments of the call. -/
structure RecordCall where
  transactionId : Nat
  transactionType : String
  transactionDate : Nat
  transactionDirection : TDirection
deriving DecidableEq, Repr

/-- Runs a sequence of `recordInventoryTransactionsFromItemsEntries` calls
for the same tenant, threading the tenant state. -/
def runRecordCalls (getInventoryEntries : String → Nat → List IItemEntry) :
    List RecordCall → InventoryState → InventoryState
  | [], st => st
  | c :: cs, st =>
    runRecordCalls getInventoryEntries cs
      (recordInventoryTransactionsFromItemsEntries getInventoryEntries st
        c.transactionId c.transactionType c.transactionDate
        c.transactionDirection)

/-- A job in the external queue (`agenda`): its name, whether it is pending
(`nextRunAt` not null), and its data payload. -/
structure AgendaJob where
  name : String
  pending : Bool
  tenantId : Nat
  itemId : Nat
  startingDate : Nat
deriving DecidableEq, Repr

/-- State observed by `scheduleComputeItemCost`: the queue's jobs and the
dispatched events. -/
structure SchedulerState where
  jobs : List AgendaJob
  events : List EventName
deriving DecidableEq, Repr

/-- The filter shared by the cancel and query steps of
`scheduleComputeItemCost`: a pending `compute-item-cost` job for the given
tenant and item. -/
def computeJobMatches (tenantId itemId : Nat) (j : AgendaJob) : Bool :=
  j.name == "compute-item-cost" && j.pending &&
    j.tenantId == tenantId && j.itemId == itemId

/-- The pending `compute-item-cost` jobs of the queue for a given tenant
and item. -/
def pendingComputeJobs (st : SchedulerState) (tenantId itemId : Nat) :
    List AgendaJob :=
  st.jobs.filter (computeJobMatches tenantId itemId)

/-- Embedding of `InventoryService.scheduleComputeItemCost`: cancels every
pending `compute-item-cost` job of the same tenant and item whose
`startingDate` is strictly greater than the requested one, then queries the
pending jobs with `startingDate` less-than-or-equal the requested one; when
none exists, schedules a new pending job with the requested payload and
dispatches the job-scheduled event. -/
def scheduleComputeItemCost (st : SchedulerState)
    (tenantId itemId startingDate : Nat) : SchedulerState :=
  let jobsAfterCancel := st.jobs.filter fun j =>
    !(computeJobMatches tenantId itemId j &&
      decide (startingDate < j.startingDate))
  let dependsJobs := jobsAfterCancel.filter fun j =>
    computeJobMatches tenantId itemId j &&
      decide (j.startingDate ≤ startingDate)
  if dependsJobs.length = 0 then
    { jobs := jobsAfterCancel ++
        [{ name := "compute-item-cost", pending := true,
           tenantId := tenantId, itemId := itemId,
           startingDate := startingDate }]
      events := st.events ++
        [EventName.computeItemCostJobScheduled tenantId itemId startingDate] }
  else
    { st with jobs := jobsAfterCancel }

/-- The job record that `scheduleComputeItemCost` enqueues for a given
tenant, item and starting date. -/
def freshComputeJob (t i d : Nat) : AgendaJob :=
  { name := "compute-item-cost", pending := true, tenantId := t,
    itemId := i, startingDate := d }

/-- Decides whether an item entry is malformed in the sense of the spec:
missing `itemId`, `quantity` or `rate`. -/
def entryIsMalformed (e : IItemEntry) : Bool :=
  e.itemId.isNone || e.quantity.isNone || e.rate.isNone

/-! ### Concrete fixtures used by witnesses and counterexamples -/

/-- An entries collaborator returning one well-formed inventory-typed entry
for every document. -/
def oneEntryCollab : String → Nat → List IItemEntry := fun _ _ =>
  [{ id := 7, referenceType := "Bill", referenceId := 42,
     itemId := some 3, quantity := some 2, rate := some 5 }]

/-- An entries collaborator returning no inventory-typed entry for any
document. -/
def emptyCollab : String → Nat → List IItemEntry := fun _ _ => []

/-- Two recording calls for two documents of the same tenant. -/
def twoBillCalls : List RecordCall :=
  [{ transactionId := 42, transactionType := "Bill", transactionDate := 100,
     transactionDirection := TDirection.OUT },
   { transactionId := 43, transactionType := "Bill", transactionDate := 101,
     transactionDirection := TDirection.OUT }]

/-- A tenant state whose lot counter key has never been written. -/
def freshTenantState : InventoryState :=
  { counter := none, transactions := [], stampedLots := [], events := [] }

/-- A tenant state whose lot counter is already set to `5`. -/
def seededTenantState : InventoryState :=
  { counter := some 5, transactions := [], stampedLots := [], events := [] }

/-- A queue holding no job at all. -/
def emptyQueue : SchedulerState := { jobs := [], events := [] }

/-- A queue holding exactly one pending compute job for tenant 1, item 2,
starting date 3. -/
def queueWithEarlyJob : SchedulerState :=
  { jobs := [freshComputeJob 1 2 3], events := [] }

/-- An item table in which every item is an inventory item configured with
the FIFO cost method. -/
def fifoItems : Nat → Option Item := fun _ =>
  some { type := "inventory", costMethod := CostMethod.FIFO }

/-- An item table in which every item is a service (non-inventory) item. -/
def serviceItems : Nat → Option Item := fun _ =>
  some { type := "service", costMethod := CostMethod.AVG }

/-- An item table in which no item exists. -/
def noItems : Nat → Option Item := fun _ => none

/-- A well-formed item entry. -/
def wellFormedEntry : IItemEntry :=
  { id := 11, referenceType := "SaleInvoice", referenceId := 42,
    itemId := some 3, quantity := some 2, rate := some 5 }

/-- An entry on which the keys `itemId`, `quantity` and `rate` are all
absent. -/
def malformedEntry : IItemEntry :=
  { id := 7, referenceType := "SaleInvoice", referenceId := 42,
    itemId := none, quantity := none, rate := none }

example : getNextLotNumber none = 1 := by decide
example : incrementNextLotNumber none = (1, some 1) := by decide
example : incrementNextLotNumber (some 1) = (2, some 2) := by decide
example : iterIncrementNextLotNumber 3 none = ([1, 2, 3], some 3) := by decide
example :
    selectCostStrategy costDispatchScrutinee = some CostStrategy.averageCost := by
  decide

example :
    (scheduleComputeItemCost
      (scheduleComputeItemCost { jobs := [], events := [] } 1 2 9) 1 2 3).jobs =
      [{ name := "compute-item-cost", pending := true, tenantId := 1,
         itemId := 2, startingDate := 3 }] := by
  decide

example :
    scheduleComputeItemCost
      { jobs := [{ name := "compute-item-cost", pending := true, tenantId := 1,
                   itemId := 2, startingDate := 3 }], events := [] } 1 2 9 =
      { jobs := [{ name := "compute-item-cost", pending := true, tenantId := 1,
                   itemId := 2, startingDate := 3 }], events := [] } := by
  decide

/-! ### Helper lemmas on filters -/

/-- Filtering by a conjunction returns the same result as filtering by the
first conjunct alone, when the second conjunct holds on every element of
that result. -/
theorem filter_and_eq_of_filter_eq {α : Type} (m q : α → Bool) :
    ∀ (l r : List α), l.filter m = r → (∀ j ∈ r, q j = true) →
      l.filter (fun j => m j && q j) = r := by
  intro l
  induction l with
  | nil =>
    intro r h _
    simpa using h
  | cons a t ih =>
    intro r h hq
    by_cases hm : m a = true
    · rw [List.filter_cons_of_pos hm] at h
      subst h
      have hqa : q a = true := hq a (List.mem_cons_self a _)
      rw [List.filter_cons_of_pos (by simp [hm, hqa])]
      exact congrArg (a :: ·)
        (ih _ rfl fun j hj => hq j (List.mem_cons_of_mem a hj))
    · have hm' : m a = false := by simpa using hm
      rw [List.filter_cons_of_neg (by simp [hm'])] at h
      rw [List.filter_cons_of_neg (by simp [hm'])]
      exact ih r h hq

/-- Filtering out elements satisfying a conjunction keeps the whole list,
when the second conjunct is false on every element of the result of
filtering by the first conjunct. -/
theorem filter_not_and_eq_self_of_filter_eq {α : Type} (m q : α → Bool) :
    ∀ (l r : List α), l.filter m = r → (∀ j ∈ r, q j = false) →
      l.filter (fun j => !(m j && q j)) = l := by
  intro l
  induction l with
  | nil =>
    intro r _ _
    simp
  | cons a t ih =>
    intro r h hq
    by_cases hm : m a = true
    · rw [List.filter_cons_of_pos hm] at h
      subst h
      have hqa : q a = false := hq a (List.mem_cons_self a _)
      rw [List.filter_cons_of_pos (by simp [hm, hqa])]
      exact congrArg (a :: ·)
        (ih _ rfl fun j hj => hq j (List.mem_cons_of_mem a hj))
    · have hm' : m a = false := by simpa using hm
      rw [List.filter_cons_of_neg (by simp [hm'])] at h
      rw [List.filter_cons_of_pos (by simp [hm'])]
      exact congrArg (a :: ·) (ih r h hq)

/-- The fresh job scheduled by `scheduleComputeItemCost` matches the
cancel/query filter for its own tenant and item. -/
theorem computeJobMatches_fresh (t i d : Nat) :
    computeJobMatches t i (freshComputeJob t i d) = true := by
  simp [computeJobMatches, freshComputeJob]

/-- Scheduling from a queue with no pending compute job for the tenant and
item appends exactly one fresh pending job and dispatches the job-scheduled
event. -/
theorem scheduleComputeItemCost_of_no_pending (st : SchedulerState)
    (t i d : Nat) (h0 : pendingComputeJobs st t i = []) :
    scheduleComputeItemCost st t i d =
      { jobs := st.jobs ++ [freshComputeJob t i d]
        events := st.events ++
          [EventName.computeItemCostJobScheduled t i d] } := by
  have hc : st.jobs.filter
      (fun j => !(computeJobMatches t i j && decide (d < j.startingDate))) =
      st.jobs :=
    filter_not_and_eq_self_of_filter_eq _ _ st.jobs [] h0 (by simp)
  have hd : st.jobs.filter
      (fun j => computeJobMatches t i j && decide (j.startingDate ≤ d)) = [] :=
    filter_and_eq_of_filter_eq _ _ st.jobs [] h0 (by simp)
  simp only [scheduleComputeItemCost, hc, hd, List.length_nil, if_pos rfl,
    if_true, freshComputeJob]

/-- Claim C3: for dates `d1 < d2`, after `scheduleComputeItemCost t i d2`
followed by `scheduleComputeItemCost t i d1` (sequentially, from a queue
with no pending compute job for `(t, i)`), the job with starting date `d2`
was pending after the first call and has been cancelled by the second, and
exactly one pending compute job remains for `(t, i)`, with starting date
`d1`. -/
theorem schedule_later_then_earlier (st : SchedulerState)
    (t i d1 d2 : Nat) (h0 : pendingComputeJobs st t i = [])
    (hd : d1 < d2) :
    pendingComputeJobs (scheduleComputeItemCost st t i d2) t i =
      [freshComputeJob t i d2] ∧
    pendingComputeJobs
        (scheduleComputeItemCost (scheduleComputeItemCost st t i d2) t i d1)
        t i =
      [freshComputeJob t i d1] := by
  have hs1 := scheduleComputeItemCost_of_no_pending st t i d2 h0
  constructor
  · rw [hs1]
    simp only [pendingComputeJobs, List.filter_append]
    rw [show st.jobs.filter (computeJobMatches t i) = [] from h0]
    simp [computeJobMatches_fresh]
  · rw [hs1]
    have hc2 : (st.jobs ++ [freshComputeJob t i d2]).filter
        (fun j => !(computeJobMatches t i j && decide (d1 < j.startingDate))) =
        st.jobs := by
      rw [List.filter_append]
      rw [filter_not_and_eq_self_of_filter_eq _ _ st.jobs [] h0 (by simp)]
      simp [freshComputeJob, computeJobMatches, hd]
    have hd2 : st.jobs.filter
        (fun j => computeJobMatches t i j && decide (j.startingDate ≤ d1)) =
        [] :=
      filter_and_eq_of_filter_eq _ _ st.jobs [] h0 (by simp)
    simp only [scheduleComputeItemCost, hc2, hd2, List.length_nil, if_pos rfl,
      if_true]
    simp only [pendingComputeJobs, List.filter_append]
    rw [show st.jobs.filter (computeJobMatches t i) = [] from h0]
    simp [freshComputeJob, computeJobMatches]

/-- Claim C4: for dates `d1 < d2`, when the queue holds exactly one pending
compute job for `(t, i)` with starting date `d1`, the call
`scheduleComputeItemCost t i d2` enqueues no new job and emits no
job-scheduled notification (the whole state, jobs and events, is
unchanged), and exactly one pending compute job remains for `(t, i)`, with
starting date `d1`. -/
theorem schedule_covered_is_noop (st : SchedulerState)
    (t i d1 d2 : Nat)
    (h0 : pendingComputeJobs st t i = [freshComputeJob t i d1])
    (hd : d1 < d2) :
    scheduleComputeItemCost st t i d2 = st ∧
      pendingComputeJobs (scheduleComputeItemCost st t i d2) t i =
        [freshComputeJob t i d1] := by
  have hmain : scheduleComputeItemCost st t i d2 = st := by
    have hc : st.jobs.filter
        (fun j => !(computeJobMatches t i j && decide (d2 < j.startingDate))) =
        st.jobs := by
      refine filter_not_and_eq_self_of_filter_eq _ _ st.jobs _ h0 ?_
      intro j hj
      rw [List.mem_singleton] at hj
      subst hj
      simp [freshComputeJob, Nat.lt_asymm hd]
    have hdep : st.jobs.filter
        (fun j => computeJobMatches t i j && decide (j.startingDate ≤ d2)) =
        [freshComputeJob t i d1] := by
      refine filter_and_eq_of_filter_eq _ _ st.jobs _ h0 ?_
      intro j hj
      rw [List.mem_singleton] at hj
      subst hj
      simp [freshComputeJob, Nat.le_of_lt hd]
    simp only [scheduleComputeItemCost, hc, hdep, List.length_cons,
      List.length_nil]
    simp
  refine ⟨hmain, ?_⟩
  rw [hmain]
  exact h0

/-! ### Lot-number sequence lemmas -/

/-- Iterating `incrementNextLotNumber` from a positive stored counter `m`
returns the values `m+1, m+2, ...` and leaves the counter at `m` plus the
number of iterations. -/
theorem iterIncrement_from_some (n : Nat) :
    ∀ m : Nat, 0 < m →
      iterIncrementNextLotNumber n (some m) =
        (List.range' (m + 1) n, some (m + n)) := by
  induction n with
  | zero =>
    intro m _
    simp [iterIncrementNextLotNumber]
  | succ k ih =>
    intro m hm
    have hstep : incrementNextLotNumber (some m) = (m + 1, some (m + 1)) := by
      simp [incrementNextLotNumber, hm.ne']
    simp only [iterIncrementNextLotNumber, hstep, ih (m + 1) (by omega),
      List.range'_succ]
    have : m + 1 + k = m + (k + 1) := by omega
    rw [this]

/-- One successful recording call from a state whose counter stores a
positive `n`: the call stamps lot `n` and stores `n + 1`. -/
theorem recordCall_step (g : String → Nat → List IItemEntry)
    (st : InventoryState) (n : Nat) (c : RecordCall)
    (hc : st.counter = some n) (hn : 0 < n)
    (hne : 0 < (g c.transactionType c.transactionId).length) :
    (recordInventoryTransactionsFromItemsEntries g st c.transactionId
        c.transactionType c.transactionDate c.transactionDirection).counter =
      some (n + 1) ∧
    (recordInventoryTransactionsFromItemsEntries g st c.transactionId
        c.transactionType c.transactionDate
        c.transactionDirection).stampedLots =
      st.stampedLots ++ [n] := by
  have hlen : ¬ (g c.transactionType c.transactionId).length ≤ 0 := by omega
  have hget : getNextLotNumber st.counter = n := by
    rw [hc]
    simp [getNextLotNumber, hn.ne']
  have hinc : (incrementNextLotNumber st.counter).2 = some (n + 1) := by
    rw [hc]
    simp [incrementNextLotNumber, hn.ne']
  constructor
  · simp only [recordInventoryTransactionsFromItemsEntries, if_neg hlen]
    exact hinc
  · simp only [recordInventoryTransactionsFromItemsEntries, if_neg hlen]
    rw [hget]

/-- Running a sequence of successful recording calls from a state whose
counter stores a positive `n` stamps exactly the consecutive lot numbers
`n, n+1, ...` (one per call) and leaves the counter at `n` plus the number
of calls. -/
theorem runRecordCalls_range (g : String → Nat → List IItemEntry) :
    ∀ (calls : List RecordCall) (st : InventoryState) (n : Nat),
      st.counter = some n → 0 < n →
      (∀ c ∈ calls, 0 < (g c.transactionType c.transactionId).length) →
      (runRecordCalls g calls st).stampedLots =
          st.stampedLots ++ List.range' n calls.length ∧
        (runRecordCalls g calls st).counter = some (n + calls.length) := by
  intro calls
  induction calls with
  | nil =>
    intro st n hc _ _
    simp [runRecordCalls, hc]
  | cons c cs ih =>
    intro st n hc hn hne
    have hstep := recordCall_step g st n c hc hn
      (hne c (List.mem_cons_self c cs))
    obtain ⟨hcounter, hstamped⟩ := hstep
    obtain ⟨hsl, hcn⟩ := ih
      (recordInventoryTransactionsFromItemsEntries g st c.transactionId
        c.transactionType c.transactionDate c.transactionDirection)
      (n + 1) hcounter (by omega)
      (fun d hd => hne d (List.mem_cons_of_mem c hd))
    rw [runRecordCalls]
    refine ⟨?_, ?_⟩
    · rw [hsl, hstamped, List.append_assoc, List.length_cons,
        List.range'_succ]
      rfl
    · rw [hcn, List.length_cons]
      congr 1
      omega

/-! ### Claim theorems -/

/-- Claim C1 (evaluation of the defect): the dispatch switch of
`computeItemCost` switches on the string literal `AVG`, not on the item's
configured cost method, so every inventory item — whatever its configured
cost method, FIFO and LIFO included — is dispatched to the weighted-average
strategy `InventoryAverageCost`, never to `InventoryCostLotTracker`.  This
refutes the claim that FIFO/LIFO items invoke the lot-tracking strategy and
that the chosen strategy is a function of the item's cost method. -/
theorem computeItemCost_dispatch_ignores_cost_method (cm : CostMethod)
    (itemId : Nat) :
    computeItemCost (fun _ => some { type := "inventory", costMethod := cm })
      itemId = Except.ok CostStrategy.averageCost := by
  simp [computeItemCost, selectCostStrategy, costDispatchScrutinee]

/-- Claim C2, counterexample to the claim as stated: from a tenant whose
counter key is unset, two successful recording calls (each with one
inventory-typed entry) both stamp lot number 1 — the stamped sequence
`[1, 1]` is not strictly increasing, so lot number 1 is reused. -/
theorem runRecordCalls_lot_reuse_from_unset_counter :
    (∀ c ∈ twoBillCalls,
      0 < (oneEntryCollab c.transactionType c.transactionId).length) ∧
    (runRecordCalls oneEntryCollab twoBillCalls freshTenantState).stampedLots =
      [1, 1] ∧
    ¬ List.Pairwise (· < ·)
      (runRecordCalls oneEntryCollab twoBillCalls
        freshTenantState).stampedLots := by
  refine ⟨by decide, by decide, by decide⟩

/-- Claim C2 (amended): for every sequence of successful
`recordInventoryTransactionsFromItemsEntries` calls for the same tenant
(each with at least one inventory-typed entry), the lot numbers stamped on
the recorded transactions are strictly increasing across the calls,
provided the tenant's stored counter is set to a positive value before the
sequence begins; from an unset counter, the first two calls both stamp lot
number 1. -/
theorem runRecordCalls_stamped_lots_strictMono_of_counter_set
    (g : String → Nat → List IItemEntry) (calls : List RecordCall)
    (st : InventoryState) (n : Nat)
    (hc : st.counter = some n) (hn : 0 < n) (hs : st.stampedLots = [])
    (hne : ∀ c ∈ calls, 0 < (g c.transactionType c.transactionId).length) :
    List.Pairwise (· < ·) (runRecordCalls g calls st).stampedLots := by
  obtain ⟨h1, _⟩ := runRecordCalls_range g calls st n hc hn hne
  rw [h1, hs, List.nil_append]
  exact List.pairwise_lt_range' n calls.length

/-- Witness for the amended C2 theorem at a concrete seeded counter. -/
theorem runRecordCalls_stamped_lots_strictMono_witness :
    seededTenantState.counter = some 5 ∧ (0 : Nat) < 5 ∧
      seededTenantState.stampedLots = [] ∧
      (∀ c ∈ twoBillCalls,
        0 < (oneEntryCollab c.transactionType c.transactionId).length) ∧
      List.Pairwise (· < ·)
        (runRecordCalls oneEntryCollab twoBillCalls
          seededTenantState).stampedLots :=
  ⟨rfl, by decide, rfl, by decide,
    runRecordCalls_stamped_lots_strictMono_of_counter_set oneEntryCollab
      twoBillCalls seededTenantState 5 rfl (by decide) rfl (by decide)⟩

/-- Witness for the C3 theorem at a concrete empty queue. -/
theorem schedule_later_then_earlier_witness :
    pendingComputeJobs emptyQueue 1 2 = [] ∧ 3 < 9 ∧
      pendingComputeJobs
          (scheduleComputeItemCost (scheduleComputeItemCost emptyQueue 1 2 9)
            1 2 3) 1 2 =
        [freshComputeJob 1 2 3] :=
  ⟨rfl, by decide,
    (schedule_later_then_earlier emptyQueue 1 2 3 9 rfl (by decide)).2⟩

/-- Witness for the C4 theorem at a concrete queue holding one early job. -/
theorem schedule_covered_is_noop_witness :
    pendingComputeJobs queueWithEarlyJob 1 2 = [freshComputeJob 1 2 3] ∧
      3 < 9 ∧
      scheduleComputeItemCost queueWithEarlyJob 1 2 9 = queueWithEarlyJob :=
  ⟨by decide, by decide,
    (schedule_covered_is_noop queueWithEarlyJob 1 2 3 9 (by decide)
      (by decide)).1⟩

/-- Claim C5: for every existing item whose `type` is not `inventory`,
`computeItemCost` fails with the thrown domain error for non-inventory
items; since the failure happens before any strategy is selected or
invoked, no cost computation is performed and no `InventoryLotCost` record
is written. -/
theorem computeItemCost_non_inventory_error (items : Nat → Option Item)
    (itemId : Nat) (item : Item) (hfound : items itemId = some item)
    (htype : item.type ≠ "inventory") :
    computeItemCost items itemId =
      Except.error ComputeItemCostError.notInventoryTypeError := by
  simp [computeItemCost, hfound, htype]

/-- Witness for the C5 theorem at a concrete service item. -/
theorem computeItemCost_non_inventory_error_witness :
    serviceItems 1 = some { type := "service", costMethod := CostMethod.AVG } ∧
      ({ type := "service", costMethod := CostMethod.AVG } : Item).type ≠
        "inventory" ∧
      computeItemCost serviceItems 1 =
        Except.error ComputeItemCostError.notInventoryTypeError :=
  ⟨rfl, by decide,
    computeItemCost_non_inventory_error serviceItems 1
      { type := "service", costMethod := CostMethod.AVG } rfl (by decide)⟩

/-- Claim C6: calling `incrementNextLotNumber` (the `incrementAndGet`
operation) `N ≥ 1` times sequentially from an unset counter returns the
sequence `1, 2, ..., N`, and the stored counter value afterwards is `N`. -/
theorem incrementNextLotNumber_yields_consecutive (N : Nat) (hN : 0 < N) :
    iterIncrementNextLotNumber N none = (List.range' 1 N, some N) := by
  obtain ⟨k, rfl⟩ : ∃ k, N = k + 1 := ⟨N - 1, by omega⟩
  have hstep : incrementNextLotNumber none = (1, some 1) := by
    simp [incrementNextLotNumber]
  simp only [iterIncrementNextLotNumber, hstep,
    iterIncrement_from_some k 1 (by omega), List.range'_succ]
  have : 1 + k = k + 1 := by omega
  rw [this]

/-- Witness for the C6 theorem at `N = 3`. -/
theorem incrementNextLotNumber_yields_consecutive_witness :
    (0 : Nat) < 3 ∧
      iterIncrementNextLotNumber 3 none = (List.range' 1 3, some 3) :=
  ⟨by decide, incrementNextLotNumber_yields_consecutive 3 (by decide)⟩

/-- Claim C7: when the entries collaborator returns zero inventory-typed
entries for the document, `recordInventoryTransactionsFromItemsEntries`
returns the tenant state unchanged: no inventory transaction is inserted,
the lot counter is not advanced, and no transactions-created notification
is dispatched. -/
theorem recordFromItemsEntries_noop_without_inventory_entries
    (g : String → Nat → List IItemEntry) (st : InventoryState)
    (transactionId : Nat) (transactionType : String) (transactionDate : Nat)
    (transactionDirection : TDirection)
    (hempty : g transactionType transactionId = []) :
    recordInventoryTransactionsFromItemsEntries g st transactionId
      transactionType transactionDate transactionDirection = st := by
  simp [recordInventoryTransactionsFromItemsEntries, hempty]

/-- Witness for the C7 theorem at a concrete empty collaborator. -/
theorem recordFromItemsEntries_noop_witness :
    emptyCollab "Bill" 42 = [] ∧
      recordInventoryTransactionsFromItemsEntries emptyCollab
        seededTenantState 42 "Bill" 100 TDirection.OUT = seededTenantState :=
  ⟨rfl,
    recordFromItemsEntries_noop_without_inventory_entries emptyCollab
      seededTenantState 42 "Bill" 100 TDirection.OUT rfl⟩

/-- Claim C8: `transformItemEntriesToInventory` returns a list of the same
length as its input, and the transaction at every index carries the call's
direction, date and lot number verbatim, copies `itemId`, `quantity` and
`rate` from the entry at the same index, takes `transactionType` and
`transactionId` from the entry's `referenceType` and `referenceId`, and
takes `entryId` from the entry's `id`. -/
theorem transformItemEntries_length_and_fields (itemEntries : List IItemEntry)
    (direction : TDirection) (date lotNumber : Nat) :
    (transformItemEntriesToInventory itemEntries direction date
        lotNumber).length = itemEntries.length ∧
    ∀ (i : Nat) (hi : i < itemEntries.length)
      (ho : i < (transformItemEntriesToInventory itemEntries direction date
        lotNumber).length),
      (transformItemEntriesToInventory itemEntries direction date
          lotNumber).get ⟨i, ho⟩ =
        { itemId := (itemEntries.get ⟨i, hi⟩).itemId
          quantity := (itemEntries.get ⟨i, hi⟩).quantity
          rate := (itemEntries.get ⟨i, hi⟩).rate
          lotNumber := lotNumber
          transactionType := (itemEntries.get ⟨i, hi⟩).referenceType
          transactionId := (itemEntries.get ⟨i, hi⟩).referenceId
          direction := direction
          date := date
          entryId := (itemEntries.get ⟨i, hi⟩).id } := by
  refine ⟨by simp [transformItemEntriesToInventory], ?_⟩
  intro i hi ho
  simp [transformItemEntriesToInventory]

/-- Witness for the C8 theorem at a concrete singleton entry list. -/
theorem transformItemEntries_length_and_fields_witness :
    (0 : Nat) < [wellFormedEntry].length ∧
      (transformItemEntriesToInventory [wellFormedEntry] TDirection.OUT 9
          4).get ⟨0, by decide⟩ =
        { itemId := wellFormedEntry.itemId
          quantity := wellFormedEntry.quantity
          rate := wellFormedEntry.rate
          lotNumber := 4
          transactionType := wellFormedEntry.referenceType
          transactionId := wellFormedEntry.referenceId
          direction := TDirection.OUT
          date := 9
          entryId := wellFormedEntry.id } :=
  ⟨by decide,
    (transformItemEntries_length_and_fields [wellFormedEntry] TDirection.OUT
      9 4).2 0 (by decide) (by decide)⟩

/-- Claim C9, counterexample to the claim as stated: an entry on which
`itemId`, `quantity` and `rate` are all missing is transformed without any
error — the malformed entry is silently accepted, producing a transaction
on which those fields are simply absent. -/
theorem transform_malformed_silently_accepted :
    entryIsMalformed malformedEntry = true ∧
    transformItemEntriesToInventory [malformedEntry] TDirection.IN 0 1 =
      [{ itemId := none, quantity := none, rate := none, lotNumber := 1,
         transactionType := "SaleInvoice", transactionId := 42,
         direction := TDirection.IN, date := 0, entryId := 7 }] := by
  decide

/-- Claim C9 (amended): `transformItemEntriesToInventory` never raises a
validation error: a malformed entry (missing `itemId`, `quantity` or
`rate`) is silently accepted like any other entry — the output still has
one transaction per input entry, and the malformed entry's transaction
carries the same absent fields. -/
theorem transform_total_accepts_malformed (itemEntries : List IItemEntry)
    (direction : TDirection) (date lotNumber : Nat) (e : IItemEntry)
    (he : e ∈ itemEntries) (hm : entryIsMalformed e = true) :
    (transformItemEntriesToInventory itemEntries direction date
        lotNumber).length = itemEntries.length ∧
    ∃ t ∈ transformItemEntriesToInventory itemEntries direction date
        lotNumber,
      t.itemId = e.itemId ∧ t.quantity = e.quantity ∧ t.rate = e.rate ∧
        t.entryId = e.id := by
  refine ⟨by simp [transformItemEntriesToInventory], ?_⟩
  exact ⟨_, List.mem_map_of_mem _ he, rfl, rfl, rfl, rfl⟩

/-- Witness for the amended C9 theorem at a concrete malformed entry. -/
theorem transform_total_accepts_malformed_witness :
    malformedEntry ∈ [malformedEntry] ∧
      entryIsMalformed malformedEntry = true ∧
      ∃ t ∈ transformItemEntriesToInventory [malformedEntry] TDirection.IN 0
          1,
        t.itemId = malformedEntry.itemId ∧
          t.quantity = malformedEntry.quantity ∧
          t.rate = malformedEntry.rate ∧ t.entryId = malformedEntry.id :=
  ⟨by decide, by decide,
    (transform_total_accepts_malformed [malformedEntry] TDirection.IN 0 1
      malformedEntry (by decide) (by decide)).2⟩

/-- Claim C10: when the item lookup returns no item, `computeItemCost` does
not raise the specified non-inventory domain error: the guard dereferences
the `type` field of the missing (`undefined`) item, so the call fails with
the unguarded undefined-field `TypeError` before any domain-error branch is
reached. -/
theorem computeItemCost_missing_item_type_error (items : Nat → Option Item)
    (itemId : Nat) (hmissing : items itemId = none) :
    computeItemCost items itemId =
        Except.error ComputeItemCostError.typeErrorUndefinedItem ∧
      computeItemCost items itemId ≠
        Except.error ComputeItemCostError.notInventoryTypeError := by
  simp [computeItemCost, hmissing]

/-- Witness for the C10 theorem at a concrete empty item table. -/
theorem computeItemCost_missing_item_type_error_witness :
    noItems 1 = none ∧
      computeItemCost noItems 1 =
          Except.error ComputeItemCostError.typeErrorUndefinedItem ∧
        computeItemCost noItems 1 ≠
          Except.error ComputeItemCostError.notInventoryTypeError :=
  ⟨rfl, computeItemCost_missing_item_type_error noItems 1 rfl⟩
